import Mathlib

/-!
Shallow embedding of the MCP client subsystem of `src/mcp.rs` (microclaw).

The embedding models the pure decision logic of the subsystem:

* the JSON value universe that `serde_json::Value` ranges over (numbers are
  modelled as integers, which covers every behaviour the verified claims
  depend on: `as_u64`, `as_bool`, `as_str` and structural dispatch);
* lenient deserialization of `JsonRpcResponse` / `JsonRpcError` exactly as
  `serde` derives it (every field optional or required as in the Rust
  struct, unknown fields ignored, `null` collapsing to `None` for `Option`
  fields);
* the stdio read loop of `McpServer::send_request` (lines 237-270), with the
  byte-level line reading abstracted into a stream of classified events
  (timeout, read error, EOF, empty line, JSON-invalid line, parsed JSON
  line) — the classification is exactly what `read_line` + `trim` +
  `serde_json::from_str` produce for each line;
* the HTTP 2xx body interpretation of `send_request` (lines 303-314);
* protocol-version resolution and negotiation (lines 121-125, 387-404);
* transport selection in `McpServer::connect` (lines 128-184);
* request-id generation (lines 211-214, 272-275), with the `u64` counter
  modelled as a natural number reduced modulo `2^64`;
* `call_tool` response interpretation (lines 443-484), with
  `serde_json::to_string_pretty` (an external library formatter) passed as
  an explicit function parameter;
* `McpManager::from_config_file` (lines 508-560), with the filesystem read,
  the config parser and the per-server bounded connect passed as explicit
  parameters describing their outcomes.
-/

namespace Microclaw

/-- JSON values, as ranged over by `serde_json::Value`.  Numbers are
modelled as integers (`u64`/`i64` payloads); this covers every numeric
behaviour the claims touch. -/
inductive Json where
  | null
  | bool (b : Bool)
  | num (n : Int)
  | str (s : String)
  | arr (items : List Json)
  | obj (fields : List (String × Json))

/-- Key lookup in a JSON object field list (serde maps have unique keys;
lookup returns the first binding). -/
def lookupField : List (String × Json) → String → Option Json
  | [], _ => none
  | (k, v) :: rest, key => if k = key then some v else lookupField rest key

/-- Model of `Value::get(key)`: `Some` only on objects that have the key. -/
def Json.getField : Json → String → Option Json
  | .obj fields, key => lookupField fields key
  | _, _ => none

/-- Model of `Value::as_str`. -/
def Json.asStr : Json → Option String
  | .str s => some s
  | _ => none

/-- Model of `Value::as_bool`. -/
def Json.asBool : Json → Option Bool
  | .bool b => some b
  | _ => none

/-- Model of `serde_json::Number::as_u64` on an integer payload: defined
exactly for integers representable as `u64`. -/
def numAsU64 (n : Int) : Option Nat :=
  if 0 ≤ n ∧ n < 2 ^ 64 then some n.toNat else none

/-- The `JsonRpcError` struct of `src/mcp.rs` lines 34-38: `code: i64`,
`message: String`. -/
structure JsonRpcError where
  code : Int
  message : String

/-- Number of bindings a key has in an object field list.  Serde derive
rejects a known field that occurs more than once (`duplicate_field`), so
the struct parses below guard on this count; `serde_json::Value` maps can
never carry a duplicate key, so on the HTTP (`from_value`) path the guard
is vacuous and one parse function serves both transports. -/
def countKey (fields : List (String × Json)) (key : String) : Nat :=
  fields.countP fun p => p.1 == key

/-- Serde deserialization of one positional element of the derived
`visit_seq` form for an `Option` field: `null` gives `none`, any other
value must deserialize as the payload type. -/
def parseSeqElem {α : Type} (f : Json → Option α) : Json → Option (Option α)
  | .null => some none
  | v => (f v).map some

/-- Serde deserialization of `JsonRpcError` from a JSON value: an object
with an integer `code` in `i64` range and a string `message` (unknown
fields ignored, duplicate known fields rejected), or the derived
positional form — a 2-element array `[code, message]`. -/
def parseJsonRpcError (v : Json) : Option JsonRpcError :=
  match v with
  | .obj fields =>
    if countKey fields "code" ≤ 1 ∧ countKey fields "message" ≤ 1 then
      match lookupField fields "code", lookupField fields "message" with
      | some (.num c), some (.str m) =>
        if -(2 ^ 63) ≤ c ∧ c < 2 ^ 63 then some ⟨c, m⟩ else none
      | _, _ => none
    else none
  | .arr [cv, mv] =>
    match cv, mv with
    | .num c, .str m =>
      if -(2 ^ 63) ≤ c ∧ c < 2 ^ 63 then some ⟨c, m⟩ else none
    | _, _ => none
  | _ => none

/-- The `JsonRpcResponse` struct of `src/mcp.rs` lines 24-32: every field
is an `Option`, so it deserializes leniently. -/
structure JsonRpcResponse where
  jsonrpc : Option String
  id : Option Json
  result : Option Json
  error : Option JsonRpcError

/-- Serde deserialization of an `Option` field: absent key or JSON `null`
gives `none`; any other value must deserialize as the payload type or the
whole struct parse fails. -/
def parseOptionalField {α : Type} (f : Json → Option α) : Option Json → Option (Option α)
  | none => some none
  | some .null => some none
  | some v => (f v).map some

/-- Serde deserialization of `JsonRpcResponse` from a JSON value, exactly
as the derive behaves under `serde_json`.  Named form: any JSON object
parses provided no known field is duplicated, `jsonrpc` (when present) is
a string or null, and `error` (when present) is null or a well-formed
`JsonRpcError`; `id` and `result` accept any value; unknown fields are
ignored.  Positional form (derived `visit_seq`, which `serde_json` routes
JSON arrays to for both `from_str` and `from_value`): a 4-element array
`[jsonrpc, id, result, error]` with each element typed as its field.
Everything else fails. -/
def parseJsonRpcResponse (v : Json) : Option JsonRpcResponse :=
  match v with
  | .obj fields =>
    if countKey fields "jsonrpc" ≤ 1 ∧ countKey fields "id" ≤ 1 ∧
        countKey fields "result" ≤ 1 ∧ countKey fields "error" ≤ 1 then do
      let jsonrpcF ← parseOptionalField Json.asStr (lookupField fields "jsonrpc")
      let idF ← parseOptionalField some (lookupField fields "id")
      let resultF ← parseOptionalField some (lookupField fields "result")
      let errorF ← parseOptionalField parseJsonRpcError (lookupField fields "error")
      pure ⟨jsonrpcF, idF, resultF, errorF⟩
    else none
  | .arr [jv, idv, rv, ev] => do
    let jsonrpcF ← parseSeqElem Json.asStr jv
    let idF ← parseSeqElem some idv
    let resultF ← parseSeqElem some rv
    let errorF ← parseSeqElem parseJsonRpcError ev
    pure ⟨jsonrpcF, idF, resultF, errorF⟩
  | _ => none

/-- The error string built at `src/mcp.rs` lines 266 and 305 for a JSON-RPC
error object. -/
def mcpErrorMsg (e : JsonRpcError) : String :=
  "MCP error (" ++ toString e.code ++ "): " ++ e.message

/-- Interpretation of a 2xx HTTP response body by the `StreamableHttp` arm
of `McpServer::send_request`, lines 303-314: try the lenient
`JsonRpcResponse` parse, else fall back to a top-level `result` key, else
return the body itself. -/
def handleHttpBody (body : Json) : Except String Json :=
  match parseJsonRpcResponse body with
  | some parsed =>
    match parsed.error with
    | some err => .error (mcpErrorMsg err)
    | none => .ok (parsed.result.getD .null)
  | none =>
    match body.getField "result" with
    | some r => .ok r
    | none => .ok body

/-- One event observed by the stdio read loop for a single
`read_line` + classification round: the deadline elapsing, an I/O read
error, EOF (zero bytes), a line whose trim is empty, a nonempty line that
`serde_json::from_str::<JsonRpcResponse>` rejects already at the JSON
level, or a line carrying a JSON value. -/
inductive ReadEvent where
  | timeout
  | readError (msg : String)
  | eof
  | emptyLine
  | invalidLine
  | jsonLine (v : Json)

/-- The `is_response` test of `src/mcp.rs` lines 258-261: a numeric id must
equal the request id under `as_u64`; any other id shape (absent, string,
...) is accepted when the frame carries `result` or `error`. -/
def isResponseFor (id : Nat) (r : JsonRpcResponse) : Bool :=
  match r.id with
  | some (.num n) => numAsU64 n == some id
  | _ => r.result.isSome || r.error.isSome

/-- The stdio read loop of `McpServer::send_request`, lines 237-270,
consuming classified read events.  Returns `none` only when the event list
is exhausted (the real loop blocks on an unbounded stream, so every run
that terminates is covered by a finite event list ending in a deciding
event). -/
def readLoop (id : Nat) : List ReadEvent → Option (Except String Json)
  | [] => none
  | .timeout :: _ => some (.error "MCP server response timeout (120s)")
  | .readError m :: _ => some (.error ("Read error: " ++ m))
  | .eof :: _ => some (.error "MCP server closed connection")
  | .emptyLine :: rest => readLoop id rest
  | .invalidLine :: rest => readLoop id rest
  | .jsonLine v :: rest =>
    match parseJsonRpcResponse v with
    | none => readLoop id rest
    | some r =>
      if isResponseFor id r then
        match r.error with
        | some err => some (.error (mcpErrorMsg err))
        | none => some (.ok (r.result.getD .null))
      else readLoop id rest

/-- The `McpServerConfig` struct of `src/mcp.rs` lines 46-68, with the
serde defaults of each field. -/
structure McpServerConfig where
  transport : String := "stdio"
  protocol_version : Option String := none
  request_timeout_secs : Option Nat := none
  command : String := ""
  args : List String := []
  env : List (String × String) := []
  endpoint : String := ""
  headers : List (String × String) := []

/-- The `McpConfig` struct of `src/mcp.rs` lines 70-76; the `HashMap` of
servers is modelled as its (unordered) entry list. -/
structure McpConfig where
  default_protocol_version : Option String := none
  mcp_servers : List (String × McpServerConfig) := []

/-- The constant of `src/mcp.rs` line 10. -/
def DEFAULT_PROTOCOL_VERSION : String := "2025-11-05"

/-- Protocol-version resolution of `McpServer::connect`, lines 121-125:
config value, else manager default, else the built-in constant. -/
def resolveRequestedProtocol (cfg : McpServerConfig) (managerDefault : Option String) : String :=
  match cfg.protocol_version with
  | some v => v
  | none =>
    match managerDefault with
    | some d => d
    | none => DEFAULT_PROTOCOL_VERSION

/-- Negotiated-protocol extraction of `McpServer::initialize`, lines
388-392: the string value of `result.protocolVersion`, else the requested
version. -/
def negotiatedProtocol (initResult : Json) (requested : String) : String :=
  match (initResult.getField "protocolVersion").bind Json.asStr with
  | some s => s
  | none => requested

/-- The `timeout_secs` binding of `McpServer::connect` line 127, consumed
only by the HTTP client builder at line 168. -/
def connectTimeoutSecs (cfg : McpServerConfig) : Nat :=
  cfg.request_timeout_secs.getD 120

/-- The stdio read deadline of `McpServer::send_request` line 239: it is
the literal `Duration::from_secs(120)`; the config value is not
consulted. -/
def stdioRequestDeadlineSecs (_cfg : McpServerConfig) : Nat := 120

/-- Rust `char::is_whitespace`: membership in the Unicode White_Space
set (U+0009-U+000D, space, NEL, NBSP, OGHAM SPACE MARK, U+2000-U+200A,
LINE/PARAGRAPH SEPARATOR, NARROW NO-BREAK SPACE, MEDIUM MATHEMATICAL
SPACE, IDEOGRAPHIC SPACE). -/
def rustIsWhitespace (c : Char) : Bool :=
  [0x9, 0xA, 0xB, 0xC, 0xD, 0x20, 0x85, 0xA0, 0x1680,
   0x2000, 0x2001, 0x2002, 0x2003, 0x2004, 0x2005, 0x2006, 0x2007,
   0x2008, 0x2009, 0x200A, 0x2028, 0x2029, 0x202F, 0x205F, 0x3000].contains c.toNat

/-- Rust `str::trim` on the character list: strip Unicode White_Space
from both ends. -/
def trimChars (l : List Char) : List Char :=
  ((l.dropWhile rustIsWhitespace).reverse.dropWhile rustIsWhitespace).reverse

/-- Rust `str::trim`, modelled on the underlying character list so it is
kernel-computable. -/
def rustTrim (s : String) : String := ⟨trimChars s.data⟩

/-- Rust `str::to_ascii_lowercase`: `char::to_ascii_lowercase` applied to
every character; the Lean `Char.toLower` lowercases exactly the ASCII
uppercase range. -/
def toAsciiLowercase (s : String) : String := ⟨s.data.map Char.toLower⟩

/-- The normalization of `McpServer::connect` line 128:
`config.transport.trim().to_ascii_lowercase()`. -/
def normalizeTransport (t : String) : String := toAsciiLowercase (rustTrim t)

/-- The transport a successful `connect` builds: the stdio arm spawns
`command` with `args` and `env` (lines 138-158); the HTTP arm builds a
client with the configured timeout for `endpoint` and `headers`
(lines 160-177). -/
inductive TransportChoice where
  | stdio (command : String) (args : List String) (env : List (String × String))
  | streamableHttp (endpoint : String) (headers : List (String × String)) (timeoutSecs : Nat)

/-- Single-quoted server name as produced by the Rust format strings. -/
def quoteName (name : String) : String := "\x27" ++ name ++ "\x27"

/-- The error of `src/mcp.rs` lines 133-135. -/
def missingCommandErr (name : String) : String :=
  "MCP server " ++ quoteName name ++ " requires `command` when transport=stdio"

/-- The error of `src/mcp.rs` lines 162-164. -/
def missingEndpointErr (name : String) : String :=
  "MCP server " ++ quoteName name ++ " requires `endpoint` when transport=streamable_http"

/-- The error of `src/mcp.rs` lines 180-182. -/
def unsupportedTransportErr (name other : String) : String :=
  "MCP server " ++ quoteName name ++ " has unsupported transport " ++ quoteName other

/-- Transport selection of `McpServer::connect`, lines 128-184: the
decision (including both required-field validations) is made before any
process is spawned or HTTP client is built, so it is a pure function of
the name and config; the success value records what would then be
spawned/built. -/
def transportChoice (name : String) (cfg : McpServerConfig) : Except String TransportChoice :=
  let transportName := normalizeTransport cfg.transport
  if transportName = "stdio" ∨ transportName = "" then
    if (rustTrim cfg.command).isEmpty then .error (missingCommandErr name)
    else .ok (.stdio cfg.command cfg.args cfg.env)
  else if transportName = "streamable_http" ∨ transportName = "http" then
    if (rustTrim cfg.endpoint).isEmpty then .error (missingEndpointErr name)
    else .ok (.streamableHttp cfg.endpoint cfg.headers (connectTimeoutSecs cfg))
  else .error (unsupportedTransportErr name transportName)

/-- Modulus of the Rust `u64` id counter. -/
def U64_MOD : Nat := 2 ^ 64

/-- Both transports initialize `next_id: 1` (lines 157, 176). -/
def initialNextId : Nat := 1

/-- One wire operation issued on a session: a request (lines 211-221 and
272-282 take `next_id`, attach it, and increment) or a notification
(lines 327-332 and 349-354 attach no id and leave `next_id` alone). -/
inductive SessionOp where
  | request (method : String) (params : Option Json)
  | notification (method : String) (params : Option Json)

/-- Effect of one operation on the `next_id` counter, paired with the id
attached to the emitted frame. -/
def stepNextId : Nat → SessionOp → Nat × Option Nat
  | s, .request _ _ => ((s + 1) % U64_MOD, some s)
  | s, .notification _ _ => (s, none)

/-- Ids attached to a sequence of operations, starting from a given
counter value. -/
def idTrace : Nat → List SessionOp → List (Option Nat)
  | _, [] => []
  | s, op :: rest =>
    let step := stepNextId s op
    step.2 :: idTrace step.1 rest

/-- Number of requests in an operation sequence. -/
def requestCount (ops : List SessionOp) : Nat :=
  ops.countP fun op => match op with | .request _ _ => true | _ => false

/-- The request ids actually attached over a sequence of operations:
the trace with the id-less notification entries dropped. -/
def issuedIds (s : Nat) (ops : List SessionOp) : List Nat :=
  (idTrace s ops).reduceOption

/-- The serialized frame shape of the `JsonRpcRequest` struct
(lines 14-22): requests carry `Some(id)`, notifications `None`. -/
structure JsonRpcRequestFrame where
  jsonrpc : String
  id : Option Nat
  method : String
  params : Option Json

/-- Request frame construction (lines 216-221 / 277-282). -/
def mkRequestFrame (id : Nat) (method : String) (params : Option Json) : JsonRpcRequestFrame :=
  ⟨"2.0", some id, method, params⟩

/-- Notification frame construction (lines 327-332 / 349-354). -/
def mkNotificationFrame (method : String) (params : Option Json) : JsonRpcRequestFrame :=
  ⟨"2.0", none, method, params⟩

/-- The per-element text extraction of `call_tool` line 464:
`item.get("text").and_then(|v| v.as_str())`. -/
def textOf (item : Json) : Option String := (item.getField "text").bind Json.asStr

/-- One round of the content-concatenation loop of `call_tool` lines
465-468: a newline is pushed before the text exactly when the accumulated
output is nonempty. -/
def joinStep (output t : String) : String :=
  (if output.isEmpty then output else output ++ "\n") ++ t

/-- The content-concatenation loop of `call_tool` lines 462-470. -/
def concatContent (items : List Json) : String :=
  items.foldl
    (fun output item =>
      match textOf item with
      | some t => joinStep output t
      | none => output)
    ""

/-- The `is_error` flag of `call_tool` lines 455-458:
`result.get("isError").and_then(|v| v.as_bool()).unwrap_or(false)`. -/
def callToolIsError (result : Json) : Bool :=
  ((result.getField "isError").bind Json.asBool).getD false

/-- The text `call_tool` emits (lines 460-478): the concatenation when
`content` is an array, else the pretty-printed whole result.
`serde_json::to_string_pretty` is external library code, passed in as
`pretty`. -/
def callToolOutput (pretty : Json → String) (result : Json) : String :=
  match result.getField "content" with
  | some (.arr items) => concatContent items
  | _ => pretty result

/-- Interpretation of a `tools/call` result by `McpServer::call_tool`,
lines 455-484. -/
def callToolInterpret (pretty : Json → String) (result : Json) : Except String String :=
  let isError := callToolIsError result
  match result.getField "content" with
  | some (.arr items) =>
    let output := concatContent items
    if isError then .error output else .ok output
  | _ =>
    let output := pretty result
    if isError then .error output else .ok output

/-- Texts joined by single newline separators, the reading the spec gives
for the concatenation; used to compare the fold in the code against the
claim. -/
def joinTexts : List String → String
  | [] => ""
  | [t] => t
  | t :: t2 :: rest => t ++ "\n" ++ joinTexts (t2 :: rest)

/-- A connected server session as retained by the manager: name, the two
protocol versions, and the tool catalog snapshot. -/
structure McpToolInfo where
  server_name : String
  name : String
  description : String
  input_schema : Json

/-- The session fields of `McpServer` (lines 107-113) that the manager
observes. -/
structure McpServerModel where
  name : String
  requested_protocol : String
  negotiated_protocol : String
  tools : List McpToolInfo

/-- Outcome of one `tokio::time::timeout(30s, McpServer::connect(..))`
call at lines 532-540: connected, connect returned an error, or the
30-second deadline elapsed. -/
inductive ConnectOutcome where
  | connected (server : McpServerModel)
  | failed (err : String)
  | timedOut

/-- The startup deadline of `src/mcp.rs` line 533:
`Duration::from_secs(30)`. -/
def managerConnectDeadlineSecs : Nat := 30

/-- The `McpManager` struct (lines 503-505). -/
structure McpManagerModel where
  servers : List McpServerModel

/-- Model of `McpManager::from_config_file`, lines 508-560.  The filesystem read is
summarized by `readResult` (`none` = `read_to_string` failed), the serde
config parse by `parse`, and each per-server deadline-bounded connect by
`connect`.  Sessions of successful connects are pushed in iteration
order; failures and timeouts are logged and skipped.  `connectPush` is
the loop body of lines 530-557. -/
def connectPush (connect : String → McpServerConfig → ConnectOutcome)
    (servers : List McpServerModel) (entry : String × McpServerConfig) :
    List McpServerModel :=
  match connect entry.1 entry.2 with
  | .connected server => servers ++ [server]
  | .failed _ => servers
  | .timedOut => servers

/-- The session a configured entry contributes, if any: `some` exactly for
a successful connect. -/
def connectedOnly (connect : String → McpServerConfig → ConnectOutcome)
    (entry : String × McpServerConfig) : Option McpServerModel :=
  match connect entry.1 entry.2 with
  | .connected server => some server
  | .failed _ => none
  | .timedOut => none

/-- The whole of `McpManager::from_config_file`: missing file and parse
failure both give an empty manager; otherwise the per-entry connect loop
runs. -/
def fromConfigFile (readResult : Option String)
    (parse : String → Option McpConfig)
    (connect : String → McpServerConfig → ConnectOutcome) : McpManagerModel :=
  match readResult with
  | none => ⟨[]⟩
  | some contents =>
    match parse contents with
    | none => ⟨[]⟩
    | some config =>
      ⟨config.mcp_servers.foldl (connectPush connect) []⟩

/-! ## Theorems -/

/-- C6: the requested protocol version is the config value when set, else
the manager default when set, else `"2025-11-05"`; the negotiated protocol
is the string value of `protocolVersion` in the initialize result, or the
requested version when that field is missing or not a string. -/
theorem protocol_version_resolution (cfg : McpServerConfig) (managerDefault : Option String)
    (initResult : Json) (requested : String) :
    (∀ v, cfg.protocol_version = some v →
      resolveRequestedProtocol cfg managerDefault = v) ∧
    (∀ d, cfg.protocol_version = none → managerDefault = some d →
      resolveRequestedProtocol cfg managerDefault = d) ∧
    (cfg.protocol_version = none → managerDefault = none →
      resolveRequestedProtocol cfg managerDefault = "2025-11-05") ∧
    (∀ s, initResult.getField "protocolVersion" = some (Json.str s) →
      negotiatedProtocol initResult requested = s) ∧
    (initResult.getField "protocolVersion" = none →
      negotiatedProtocol initResult requested = requested) ∧
    (∀ v, initResult.getField "protocolVersion" = some v → v.asStr = none →
      negotiatedProtocol initResult requested = requested) := by
  refine ⟨?_, ?_, ?_, ?_, ?_, ?_⟩
  · intro v h; simp [resolveRequestedProtocol, h]
  · intro d h1 h2; simp [resolveRequestedProtocol, h1, h2]
  · intro h1 h2; simp [resolveRequestedProtocol, h1, h2, DEFAULT_PROTOCOL_VERSION]
  · intro s h; simp [negotiatedProtocol, h, Json.asStr]
  · intro h; simp [negotiatedProtocol, h]
  · intro v h1 h2; simp [negotiatedProtocol, h1, h2]

/-- Witness for C6: manager default fills in an unset config version, and
the downgraded `protocolVersion` string from the server is taken verbatim. -/
theorem protocol_version_resolution_witness :
    resolveRequestedProtocol { transport := "stdio" } (some "2024-09-01") = "2024-09-01" ∧
    negotiatedProtocol (Json.obj [("protocolVersion", Json.str "2024-01-01")]) "2025-11-05"
      = "2024-01-01" :=
  ⟨(protocol_version_resolution { transport := "stdio" } (some "2024-09-01")
      Json.null "x").2.1 "2024-09-01" rfl rfl,
   (protocol_version_resolution { transport := "stdio" } none
      (Json.obj [("protocolVersion", Json.str "2024-01-01")]) "2025-11-05").2.2.2.1
      "2024-01-01" rfl⟩

/-- C2 counterexample: with `request_timeout_secs = 5` configured, the
stdio read deadline is still 120 seconds, not the configured 5 — line 239
hard-codes `Duration::from_secs(120)`. -/
theorem stdio_deadline_ignores_config :
    stdioRequestDeadlineSecs
      { transport := "stdio", command := "srv", request_timeout_secs := some 5 } = 120 ∧
    stdioRequestDeadlineSecs
      { transport := "stdio", command := "srv", request_timeout_secs := some 5 } ≠ 5 :=
  ⟨rfl, by decide⟩

/-- C2 amended: the stdio transport applies a fixed 120-second read
deadline regardless of `request_timeout_secs` and fails with the timeout
error when it elapses; the HTTP client timeout is the
configured value, 120 when the field is absent. -/
theorem request_deadline_resolution (cfg : McpServerConfig) (id : Nat) (rest : List ReadEvent) :
    stdioRequestDeadlineSecs cfg = 120 ∧
    (∀ t, cfg.request_timeout_secs = some t → connectTimeoutSecs cfg = t) ∧
    (cfg.request_timeout_secs = none → connectTimeoutSecs cfg = 120) ∧
    readLoop id (.timeout :: rest) = some (.error "MCP server response timeout (120s)") := by
  refine ⟨rfl, ?_, ?_, rfl⟩
  · intro t h; simp [connectTimeoutSecs, h]
  · intro h; simp [connectTimeoutSecs, h]

/-- Witness for C2 amended: a configured 7-second timeout reaches the HTTP
client but not the stdio deadline. -/
theorem request_deadline_resolution_witness :
    stdioRequestDeadlineSecs { transport := "http", request_timeout_secs := some 7 } = 120 ∧
    connectTimeoutSecs { transport := "http", request_timeout_secs := some 7 } = 7 :=
  ⟨(request_deadline_resolution
      { transport := "http", request_timeout_secs := some 7 } 1 []).1,
   (request_deadline_resolution
      { transport := "http", request_timeout_secs := some 7 } 1 []).2.1 7 rfl⟩

/-- C10: the transport string is trimmed and ASCII-lowercased; "stdio" or
the empty string select stdio (rejecting a blank command first), any
variant of "streamable_http" or "http" selects HTTP (rejecting a blank
endpoint first), and anything else is a config error naming the server —
all decided before a process is spawned or a client is built. -/
theorem transport_selection (name : String) (cfg : McpServerConfig) :
    (normalizeTransport cfg.transport = "stdio" ∨ normalizeTransport cfg.transport = "" →
      ((rustTrim cfg.command).isEmpty = false →
        transportChoice name cfg = .ok (.stdio cfg.command cfg.args cfg.env)) ∧
      ((rustTrim cfg.command).isEmpty = true →
        transportChoice name cfg = .error (missingCommandErr name))) ∧
    (normalizeTransport cfg.transport = "streamable_http" ∨
        normalizeTransport cfg.transport = "http" →
      ((rustTrim cfg.endpoint).isEmpty = false →
        transportChoice name cfg =
          .ok (.streamableHttp cfg.endpoint cfg.headers (connectTimeoutSecs cfg))) ∧
      ((rustTrim cfg.endpoint).isEmpty = true →
        transportChoice name cfg = .error (missingEndpointErr name))) ∧
    (normalizeTransport cfg.transport ≠ "stdio" → normalizeTransport cfg.transport ≠ "" →
      normalizeTransport cfg.transport ≠ "streamable_http" →
      normalizeTransport cfg.transport ≠ "http" →
      transportChoice name cfg =
        .error (unsupportedTransportErr name (normalizeTransport cfg.transport))) := by
  refine ⟨?_, ?_, ?_⟩
  · intro h
    constructor
    · intro hc
      rw [transportChoice]
      simp only [if_pos h, hc, Bool.false_eq_true, if_false]
    · intro hc
      rw [transportChoice]
      simp only [if_pos h, hc, if_true]
  · intro h
    have hne : ¬ (normalizeTransport cfg.transport = "stdio" ∨
        normalizeTransport cfg.transport = "") := by
      rcases h with h | h <;> rw [h] <;> decide
    constructor
    · intro hc
      rw [transportChoice]
      simp only [if_neg hne, if_pos h, hc, Bool.false_eq_true, if_false]
    · intro hc
      rw [transportChoice]
      simp only [if_neg hne, if_pos h, hc, if_true]
  · intro h1 h2 h3 h4
    rw [transportChoice]
    rw [if_neg (by tauto), if_neg (by tauto)]

/-- Witness for C10: a cased, padded "  StDiO " variant selects stdio, a
variant padded with the Unicode whitespace U+000B selects stdio too, a
padded " HTTP " variant selects the HTTP transport, a command that is
only the Unicode whitespace U+000C counts as blank, and an unknown
transport is rejected with an error naming the server. -/
theorem transport_selection_witness :
    transportChoice "srv" { transport := "  StDiO ", command := "run-me" }
      = .ok (.stdio "run-me" [] []) ∧
    transportChoice "srv" { transport := "stdio\u000B", command := "run-me" }
      = .ok (.stdio "run-me" [] []) ∧
    transportChoice "srv" { transport := " HTTP ", endpoint := "http://x/mcp" }
      = .ok (.streamableHttp "http://x/mcp" [] 120) ∧
    transportChoice "srv" { transport := "stdio", command := "\u000C" }
      = .error (missingCommandErr "srv") ∧
    transportChoice "srv" { transport := "carrier-pigeon" }
      = .error (unsupportedTransportErr "srv" "carrier-pigeon") :=
  ⟨((transport_selection "srv" { transport := "  StDiO ", command := "run-me" }).1
      (Or.inl rfl)).1 rfl,
   ((transport_selection "srv" { transport := "stdio\u000B", command := "run-me" }).1
      (Or.inl rfl)).1 rfl,
   ((transport_selection "srv" { transport := " HTTP ", endpoint := "http://x/mcp" }).2.1
      (Or.inr rfl)).1 rfl,
   ((transport_selection "srv" { transport := "stdio", command := "\u000C" }).1
      (Or.inl rfl)).2 rfl,
   (transport_selection "srv" { transport := "carrier-pigeon" }).2.2
      (by decide) (by decide) (by decide) (by decide)⟩

/-- The first equation of `parseOptionalField`: an absent key parses to
`none`. -/
theorem parseOptionalField_none {α : Type} (f : Json → Option α) :
    parseOptionalField f none = some none := rfl

/-- A key that fails lookup has no binding at all. -/
theorem countKey_eq_zero_of_lookup_none (fields : List (String × Json)) (key : String)
    (h : lookupField fields key = none) : countKey fields key = 0 := by
  induction fields with
  | nil => rfl
  | cons p rest ih =>
    obtain ⟨k, v⟩ := p
    rw [lookupField] at h
    by_cases hk : k = key
    · rw [if_pos hk] at h
      exact absurd h (by simp)
    · rw [if_neg hk] at h
      have hrest := ih h
      simp only [countKey, List.countP_cons] at hrest ⊢
      simp [beq_iff_eq, hk, hrest]

/-- Every value of shape `parseOptionalField some x` is defined: the `id`
and `result` fields of the lenient response parse never fail. -/
theorem parseOptionalField_some_total (x : Option Json) :
    ∃ y, parseOptionalField some x = some y := by
  cases x with
  | none => exact ⟨none, rfl⟩
  | some v => cases v <;> exact ⟨_, rfl⟩

/-- C1 counterexample: a 2xx object body `\x7b"x":1\x7d` with neither
`result` nor `error` is NOT returned verbatim — it parses as a lenient
JSON-RPC response (all fields optional, unknown fields ignored), so the
absent `result` yields `null`. -/
theorem http_object_body_not_returned_verbatim :
    handleHttpBody (Json.obj [("x", Json.num 1)]) = Except.ok Json.null ∧
    (Except.ok Json.null : Except String Json) ≠ Except.ok (Json.obj [("x", Json.num 1)]) := by
  refine ⟨rfl, ?_⟩
  intro h
  injection h with h
  exact Json.noConfusion h

/-- C1 amended: on a 2xx status, if the body parses as a JSON-RPC response
under the lenient derive — any JSON object without duplicated known
fields whose `jsonrpc` field, when present, is a string or null and whose
`error` field, when present, is null or an object with integer code and
string message, or any 4-element JSON array matching the positional field
order `[jsonrpc, id, result, error]` — the call honors `result`/`error`:
an error object becomes an error, otherwise the `result` field, or null
when absent, is returned; only a body that fails this parse falls back to
a top-level `result` key and then to the body itself.  An object body
such as `\x7b"x":1\x7d` parses, so it yields null, not the body; an array
body `["2.0", 1, X, null]` yields its positional result `X`. -/
theorem http_body_dispatch (body : Json) :
    (∀ r, parseJsonRpcResponse body = some r → r.error = none →
      handleHttpBody body = .ok (r.result.getD .null)) ∧
    (∀ r e, parseJsonRpcResponse body = some r → r.error = some e →
      handleHttpBody body = .error (mcpErrorMsg e)) ∧
    (∀ v, parseJsonRpcResponse body = none → body.getField "result" = some v →
      handleHttpBody body = .ok v) ∧
    (parseJsonRpcResponse body = none → body.getField "result" = none →
      handleHttpBody body = .ok body) ∧
    (∀ fields, body = .obj fields → body.getField "jsonrpc" = none →
      body.getField "error" = none → countKey fields "id" ≤ 1 →
      countKey fields "result" ≤ 1 →
      ∃ r, parseJsonRpcResponse body = some r) ∧
    (∀ idv rv, handleHttpBody (Json.arr [Json.str "2.0", idv, rv, Json.null])
      = Except.ok rv) := by
  refine ⟨?_, ?_, ?_, ?_, ?_, ?_⟩
  · intro r h he; simp [handleHttpBody, h, he]
  · intro r e h he; simp [handleHttpBody, h, he]
  · intro v h hr; simp [handleHttpBody, h, hr]
  · intro h hr; simp [handleHttpBody, h, hr]
  · intro fields hb h1 h2 hid1 hres1
    subst hb
    have h1' : lookupField fields "jsonrpc" = none := by
      simpa [Json.getField] using h1
    have h2' : lookupField fields "error" = none := by
      simpa [Json.getField] using h2
    have hcj : countKey fields "jsonrpc" = 0 :=
      countKey_eq_zero_of_lookup_none fields "jsonrpc" h1'
    have hce : countKey fields "error" = 0 :=
      countKey_eq_zero_of_lookup_none fields "error" h2'
    obtain ⟨idF, hid⟩ := parseOptionalField_some_total (lookupField fields "id")
    obtain ⟨resF, hres⟩ := parseOptionalField_some_total (lookupField fields "result")
    refine ⟨⟨none, idF, resF, none⟩, ?_⟩
    simp only [parseJsonRpcResponse]
    rw [if_pos ⟨by omega, hid1, hres1, by omega⟩]
    simp only [h1', h2', hid, hres, parseOptionalField_none, Option.some_bind]
    rfl
  · intro idv rv
    cases idv <;> cases rv <;> rfl

/-- Witness for C1 amended: a well-formed object body with a `result`
field yields that result, and a positional array body yields its third
element. -/
theorem http_body_dispatch_witness :
    handleHttpBody (Json.obj [("id", Json.num 1), ("result", Json.str "ok")])
      = Except.ok (Json.str "ok") ∧
    handleHttpBody (Json.arr [Json.str "2.0", Json.num 1, Json.str "X", Json.null])
      = Except.ok (Json.str "X") :=
  ⟨(http_body_dispatch (Json.obj [("id", Json.num 1), ("result", Json.str "ok")])).1
    ⟨none, some (Json.num 1), some (Json.str "ok"), none⟩ rfl rfl,
   (http_body_dispatch (Json.obj [])).2.2.2.2.2 (Json.num 1) (Json.str "X")⟩

/-- Every `callToolInterpret` run routes the single computed output text
through the `isError` flag. -/
theorem callToolInterpret_eq (pretty : Json → String) (result : Json) :
    callToolInterpret pretty result =
      if callToolIsError result then .error (callToolOutput pretty result)
      else .ok (callToolOutput pretty result) := by
  unfold callToolInterpret callToolOutput
  rcases h : result.getField "content" with - | c
  · rfl
  · cases c <;> rfl

/-- The `is_error` flag is set exactly when `isError` is the JSON boolean
`true` (`as_bool` rejects every non-boolean). -/
theorem callToolIsError_iff (result : Json) :
    callToolIsError result = true ↔ result.getField "isError" = some (Json.bool true) := by
  unfold callToolIsError
  rcases h : result.getField "isError" with - | v
  · simp
  · cases v <;> simp [Json.asBool]

/-- C3 counterexample: `isError` set to the non-empty string "yes" — which
the claim counts as truthy — yields SUCCESS, because `as_bool` returns
`None` for strings and the flag defaults to false. -/
theorem call_tool_string_is_error_yields_success :
    callToolInterpret (fun _ => "")
      (Json.obj
        [("isError", Json.str "yes"),
         ("content", Json.arr [Json.obj [("text", Json.str "boom")]])])
      = Except.ok "boom" := rfl

/-- C3 amended: `isError` is truthy only when it is the JSON boolean
`true`; then the call returns an error carrying the content text.  Any
other value — absent, `false`, a string, a number — yields success. -/
theorem call_tool_is_error_bool_only (pretty : Json → String) (result : Json) :
    (result.getField "isError" = some (Json.bool true) →
      callToolInterpret pretty result = .error (callToolOutput pretty result)) ∧
    (result.getField "isError" ≠ some (Json.bool true) →
      callToolInterpret pretty result = .ok (callToolOutput pretty result)) := by
  constructor
  · intro h
    rw [callToolInterpret_eq, if_pos ((callToolIsError_iff result).mpr h)]
  · intro h
    rw [callToolInterpret_eq,
      if_neg (fun hb => h ((callToolIsError_iff result).mp hb))]

/-- Witness for C3 amended: `isError: true` surfaces the content text
"boom" as an error. -/
theorem call_tool_is_error_bool_only_witness :
    callToolInterpret (fun _ => "")
      (Json.obj
        [("isError", Json.bool true),
         ("content", Json.arr [Json.obj [("text", Json.str "boom")]])])
      = Except.error "boom" :=
  (call_tool_is_error_bool_only (fun _ => "")
    (Json.obj
      [("isError", Json.bool true),
       ("content", Json.arr [Json.obj [("text", Json.str "boom")]])])).1 rfl

/-- C5: the stdio reader skips empty lines, JSON-invalid lines and
non-matching frames; it accepts a frame whose numeric id equals the
request id, or one without an id that carries `result` or `error`; a
matched `error` object becomes an error with its code and message; EOF
fails with the connection-closed error and an elapsed deadline with the
timeout error. -/
theorem stdio_read_loop_behavior (id : Nat) (rest : List ReadEvent) :
    readLoop id (.emptyLine :: rest) = readLoop id rest ∧
    readLoop id (.invalidLine :: rest) = readLoop id rest ∧
    (∀ v, parseJsonRpcResponse v = none →
      readLoop id (.jsonLine v :: rest) = readLoop id rest) ∧
    (∀ v r, parseJsonRpcResponse v = some r → isResponseFor id r = false →
      readLoop id (.jsonLine v :: rest) = readLoop id rest) ∧
    (∀ r n, r.id = some (Json.num n) →
      (isResponseFor id r = true ↔ numAsU64 n = some id)) ∧
    (∀ r, r.id = none →
      (isResponseFor id r = true ↔ (r.result.isSome ∨ r.error.isSome))) ∧
    (∀ v r, parseJsonRpcResponse v = some r → isResponseFor id r = true → r.error = none →
      readLoop id (.jsonLine v :: rest) = some (.ok (r.result.getD .null))) ∧
    (∀ v r e, parseJsonRpcResponse v = some r → isResponseFor id r = true →
      r.error = some e →
      readLoop id (.jsonLine v :: rest) = some (.error (mcpErrorMsg e))) ∧
    readLoop id (.eof :: rest) = some (.error "MCP server closed connection") ∧
    readLoop id (.timeout :: rest) = some (.error "MCP server response timeout (120s)") := by
  refine ⟨rfl, rfl, ?_, ?_, ?_, ?_, ?_, ?_, rfl, rfl⟩
  · intro v h; simp [readLoop, h]
  · intro v r h hresp; simp [readLoop, h, hresp]
  · intro r n h; simp [isResponseFor, h]
  · intro r h; simp [isResponseFor, h]
  · intro v r h hresp he; simp [readLoop, h, hresp, he]
  · intro v r e h hresp he; simp [readLoop, h, hresp, he]

/-- Witness for C5: a duplicate-field line (which `from_str` rejects with
`duplicate_field`) and an unsolicited id-less notification line between
the request and the matching response are both skipped, and the response
with the matching numeric id is returned. -/
theorem stdio_read_loop_behavior_witness :
    readLoop 7
      [ReadEvent.jsonLine (Json.obj [("result", Json.num 1), ("result", Json.num 2)]),
       ReadEvent.jsonLine (Json.obj [("jsonrpc", Json.str "2.0"), ("method", Json.str "note")]),
       ReadEvent.jsonLine (Json.obj [("id", Json.num 7), ("result", Json.str "ok")])]
      = some (Except.ok (Json.str "ok")) := by
  have hdup :=
    (stdio_read_loop_behavior 7
        [ReadEvent.jsonLine (Json.obj [("jsonrpc", Json.str "2.0"), ("method", Json.str "note")]),
         ReadEvent.jsonLine (Json.obj [("id", Json.num 7), ("result", Json.str "ok")])]).2.2.1
      (Json.obj [("result", Json.num 1), ("result", Json.num 2)]) rfl
  have hskip :=
    (stdio_read_loop_behavior 7
        [ReadEvent.jsonLine (Json.obj [("id", Json.num 7), ("result", Json.str "ok")])]).2.2.2.1
      (Json.obj [("jsonrpc", Json.str "2.0"), ("method", Json.str "note")])
      ⟨some "2.0", none, none, none⟩ rfl rfl
  have hacc :=
    (stdio_read_loop_behavior 7 []).2.2.2.2.2.2.1
      (Json.obj [("id", Json.num 7), ("result", Json.str "ok")])
      ⟨none, some (Json.num 7), some (Json.str "ok"), none⟩ rfl (by decide) rfl
  exact (hdup.trans hskip).trans hacc

/-- C9 counterexample: a response line whose id is the number −1 (numeric
but not representable as u64) carrying a `result` is NOT accepted for
request id 7 — the numeric arm compares `as_u64` (None) with the request
id and skips the line, so the following EOF decides the call. -/
theorem negative_numeric_id_line_skipped :
    readLoop 7
      [ReadEvent.jsonLine (Json.obj [("id", Json.num (-1)), ("result", Json.str "r")]),
       ReadEvent.eof]
      = some (Except.error "MCP server closed connection") := rfl

/-- C9 amended: the id-equality check applies to every JSON-number id —
a numeric id whose `as_u64` differs from the request id (in particular any
number not representable as u64) is skipped; only a present NON-numeric id
(for example a string) falls into the tolerance arm and is accepted
whenever the frame carries `result` or `error`. -/
theorem id_match_arms (id : Nat) (rest : List ReadEvent) :
    (∀ v r n, parseJsonRpcResponse v = some r → r.id = some (Json.num n) →
      numAsU64 n ≠ some id →
      readLoop id (.jsonLine v :: rest) = readLoop id rest) ∧
    (∀ v r, parseJsonRpcResponse v = some r → (∀ n, r.id ≠ some (Json.num n)) →
      (r.result.isSome || r.error.isSome) = true → r.error = none →
      readLoop id (.jsonLine v :: rest) = some (.ok (r.result.getD .null))) ∧
    (∀ v r e, parseJsonRpcResponse v = some r → (∀ n, r.id ≠ some (Json.num n)) →
      r.error = some e →
      readLoop id (.jsonLine v :: rest) = some (.error (mcpErrorMsg e))) := by
  have harm : ∀ (r : JsonRpcResponse), (∀ n, r.id ≠ some (Json.num n)) →
      isResponseFor id r = (r.result.isSome || r.error.isSome) := by
    intro r hn
    rcases hid : r.id with - | v
    · simp [isResponseFor, hid]
    · cases v with
      | num n => exact absurd hid (hn n)
      | null => simp [isResponseFor, hid]
      | bool b => simp [isResponseFor, hid]
      | str s => simp [isResponseFor, hid]
      | arr items => simp [isResponseFor, hid]
      | obj fields => simp [isResponseFor, hid]
  refine ⟨?_, ?_, ?_⟩
  · intro v r n hp hid hne
    have : isResponseFor id r = false := by
      simp [isResponseFor, hid, hne]
    simp [readLoop, hp, this]
  · intro v r hp hn hsome he
    have : isResponseFor id r = true := (harm r hn).trans hsome
    simp [readLoop, hp, this, he]
  · intro v r e hp hn he
    have : isResponseFor id r = true := by
      rw [harm r hn, he]
      simp
    simp [readLoop, hp, this, he]

/-- Witness for C9 amended: a response with the string id "abc" and a
`result` satisfies a request with numeric id 7 — both in the named object
form and in the positional array form `[null, "abc", "r", null]` that the
serde derive also accepts. -/
theorem id_match_arms_witness :
    readLoop 7
      [ReadEvent.jsonLine (Json.obj [("id", Json.str "abc"), ("result", Json.str "r")])]
      = some (Except.ok (Json.str "r")) ∧
    readLoop 7
      [ReadEvent.jsonLine (Json.arr [Json.null, Json.str "abc", Json.str "r", Json.null])]
      = some (Except.ok (Json.str "r")) := by
  constructor
  · refine (id_match_arms 7 []).2.1
      (Json.obj [("id", Json.str "abc"), ("result", Json.str "r")])
      ⟨none, some (Json.str "abc"), some (Json.str "r"), none⟩ rfl ?_ rfl rfl
    intro n h
    injection h with h
    exact Json.noConfusion h
  · refine (id_match_arms 7 []).2.1
      (Json.arr [Json.null, Json.str "abc", Json.str "r", Json.null])
      ⟨none, some (Json.str "abc"), some (Json.str "r"), none⟩ rfl ?_ rfl rfl
    intro n h
    injection h with h
    exact Json.noConfusion h

/-- Appending on the left of a nonempty string keeps it nonempty. -/
theorem isEmpty_false_append (a b : String) (h : a.isEmpty = false) :
    (a ++ b).isEmpty = false := by
  cases h2 : (a ++ b).isEmpty with
  | false => rfl
  | true =>
    exfalso
    have hab : a ++ b = "" := (String.isEmpty_iff (a ++ b)).mp h2
    have hdata : a.data ++ b.data = [] := by
      rw [← String.data_append, hab]
    have ha : a = "" := String.ext (List.append_eq_nil.mp hdata).1
    rw [ha] at h
    exact absurd h (by decide)

/-- Splitting the head of a newline-join: a prefix of the first text moves
out of the join. -/
theorem joinTexts_cons_append (a b : String) (ts : List String) :
    joinTexts ((a ++ b) :: ts) = a ++ joinTexts (b :: ts) := by
  cases ts with
  | nil => rfl
  | cons u ts' => simp [joinTexts, String.append_assoc]

/-- The concatenation fold started from a nonempty accumulator prepends a
separator before every subsequent text. -/
theorem foldl_joinStep_nonempty (ts : List String) :
    ∀ acc : String, acc.isEmpty = false →
      ts.foldl joinStep acc = joinTexts (acc :: ts) := by
  induction ts with
  | nil => intro acc h; rfl
  | cons t ts' ih =>
    intro acc h
    have hstep : joinStep acc t = (acc ++ "\n") ++ t := by simp [joinStep, h]
    rw [List.foldl_cons, hstep,
      ih _ (isEmpty_false_append _ _ (isEmpty_false_append _ _ h)),
      joinTexts_cons_append (acc ++ "\n") t ts']
    rfl

/-- The concatenation fold started empty equals the newline-join of the
texts with their leading empty texts dropped. -/
theorem foldl_joinStep_empty (ts : List String) :
    ts.foldl joinStep "" = joinTexts (ts.dropWhile String.isEmpty) := by
  induction ts with
  | nil => rfl
  | cons t ts' ih =>
    cases h : t.isEmpty with
    | true =>
      have ht : t = "" := (String.isEmpty_iff t).mp h
      rw [List.foldl_cons]
      have hstep : joinStep "" t = "" := by rw [ht]; rfl
      rw [hstep, ih]
      simp [List.dropWhile_cons, h]
    | false =>
      rw [List.foldl_cons]
      have hstep : joinStep "" t = t := rfl
      rw [hstep, foldl_joinStep_nonempty ts' t h]
      simp [List.dropWhile_cons, h]

/-- The per-item fold of `call_tool` equals the text-level fold over the
extracted texts. -/
theorem foldl_concat_filterMap (items : List Json) :
    ∀ acc : String,
      items.foldl
        (fun output item =>
          match textOf item with
          | some t => joinStep output t
          | none => output) acc
      = (items.filterMap textOf).foldl joinStep acc := by
  induction items with
  | nil => intro acc; rfl
  | cons it rest ih =>
    intro acc
    rcases h : textOf it with - | t
    · simp [List.foldl_cons, List.filterMap_cons, h, ih]
    · simp [List.foldl_cons, List.filterMap_cons, h, ih]

/-- The content concatenation of `call_tool` is the newline-join of the
string `text` fields, after dropping leading empty texts. -/
theorem concatContent_eq (items : List Json) :
    concatContent items = joinTexts ((items.filterMap textOf).dropWhile String.isEmpty) := by
  unfold concatContent
  exact (foldl_concat_filterMap items "").trans (foldl_joinStep_empty _)

/-- C4 counterexample: content `[ \x7b"text":""\x7d, \x7b"text":"b"\x7d ]`
returns "b", not the plain newline-join "\nb" of the text fields the
claim prescribes — the separator is emitted only when the accumulated
output is nonempty. -/
theorem call_tool_leading_empty_text_not_joined :
    callToolInterpret (fun _ => "")
      (Json.obj
        [("content", Json.arr
          [Json.obj [("text", Json.str "")], Json.obj [("text", Json.str "b")]])])
      = Except.ok "b" ∧
    (Except.ok "b" : Except String String) ≠ Except.ok "\nb" := by
  refine ⟨rfl, ?_⟩
  intro h
  injection h with h
  simp at h

/-- C4 amended: when `content` is an array, the returned text is the
string `text` fields in array order joined by single "\n" separators after
dropping the leading empty texts (a separator is emitted only when the
output accumulated so far is nonempty); elements lacking a string `text`
contribute nothing and introduce no blank line.  When `content` is not an
array (or absent), the pretty-printed whole result is returned instead.
The output is routed as success or error per the `isError` flag. -/
theorem call_tool_content_concat (pretty : Json → String) (result : Json) :
    (∀ items, result.getField "content" = some (Json.arr items) →
      callToolInterpret pretty result =
        if callToolIsError result
        then Except.error (joinTexts ((items.filterMap textOf).dropWhile String.isEmpty))
        else Except.ok (joinTexts ((items.filterMap textOf).dropWhile String.isEmpty))) ∧
    (∀ c, result.getField "content" = some c → (∀ items, c ≠ Json.arr items) →
      callToolInterpret pretty result =
        if callToolIsError result then Except.error (pretty result)
        else Except.ok (pretty result)) ∧
    (result.getField "content" = none →
      callToolInterpret pretty result =
        if callToolIsError result then Except.error (pretty result)
        else Except.ok (pretty result)) := by
  refine ⟨?_, ?_, ?_⟩
  · intro items h
    rw [callToolInterpret_eq]
    have hout : callToolOutput pretty result
        = joinTexts ((items.filterMap textOf).dropWhile String.isEmpty) := by
      unfold callToolOutput
      rw [h]
      exact concatContent_eq items
    rw [hout]
  · intro c h hne
    rw [callToolInterpret_eq]
    have hout : callToolOutput pretty result = pretty result := by
      unfold callToolOutput
      rw [h]
      cases c with
      | arr items => exact absurd rfl (hne items)
      | null => rfl
      | bool b => rfl
      | num n => rfl
      | str s => rfl
      | obj fields => rfl
    rw [hout]
  · intro h
    rw [callToolInterpret_eq]
    have hout : callToolOutput pretty result = pretty result := by
      unfold callToolOutput
      rw [h]
    rw [hout]

/-- Witness for C4 amended: content
`[ \x7b"text":"a"\x7d, \x7b"type":"image"\x7d, \x7b"text":"b"\x7d ]`
yields "a\nb" — the schema-less element contributes nothing and no blank
line. -/
theorem call_tool_content_concat_witness :
    callToolInterpret (fun _ => "")
      (Json.obj
        [("content", Json.arr
          [Json.obj [("text", Json.str "a")],
           Json.obj [("type", Json.str "image")],
           Json.obj [("text", Json.str "b")]])])
      = Except.ok "a\nb" :=
  (call_tool_content_concat (fun _ => "")
    (Json.obj
      [("content", Json.arr
        [Json.obj [("text", Json.str "a")],
         Json.obj [("type", Json.str "image")],
         Json.obj [("text", Json.str "b")]])])).1
    [Json.obj [("text", Json.str "a")],
     Json.obj [("type", Json.str "image")],
     Json.obj [("text", Json.str "b")]] rfl

/-- A sequence of operations with no requests issues no ids. -/
theorem issuedIds_no_requests (ops : List SessionOp) :
    ∀ s, requestCount ops = 0 → issuedIds s ops = [] := by
  induction ops with
  | nil => intro s _; rfl
  | cons op rest ih =>
    intro s h
    cases op with
    | request m p => simp [requestCount, List.countP_cons] at h
    | notification m p =>
      have hrest : requestCount rest = 0 := by
        simpa [requestCount, List.countP_cons] using h
      simpa [issuedIds, idTrace, stepNextId, List.reduceOption_cons_of_none]
        using ih s hrest

/-- Ids issued from counter value `s` are `s, s+1, ...`, one per request,
as long as the `u64` counter does not wrap. -/
theorem issuedIds_eq_range' (ops : List SessionOp) :
    ∀ s, s + requestCount ops ≤ U64_MOD →
      issuedIds s ops = List.range' s (requestCount ops) := by
  induction ops with
  | nil => intro s _; rfl
  | cons op rest ih =>
    intro s h
    cases op with
    | request m p =>
      have hrc : requestCount (SessionOp.request m p :: rest) = requestCount rest + 1 := by
        simp [requestCount, List.countP_cons]
      rw [hrc] at h ⊢
      have hstep : issuedIds s (SessionOp.request m p :: rest)
          = s :: issuedIds ((s + 1) % U64_MOD) rest := by
        simp [issuedIds, idTrace, stepNextId, List.reduceOption_cons_of_some]
      rw [hstep]
      by_cases hlt : s + 1 < U64_MOD
      · rw [Nat.mod_eq_of_lt hlt, ih (s + 1) (by omega), List.range'_succ]
      · have hrc0 : requestCount rest = 0 := by omega
        rw [hrc0, issuedIds_no_requests rest _ hrc0]
        rfl
    | notification m p =>
      have hrc : requestCount (SessionOp.notification m p :: rest) = requestCount rest := by
        simp [requestCount, List.countP_cons]
      have hstep : issuedIds s (SessionOp.notification m p :: rest) = issuedIds s rest := by
        simp [issuedIds, idTrace, stepNextId, List.reduceOption_cons_of_none]
      rw [hstep, hrc]
      exact ih s (by rw [hrc] at h; exact h)

/-- C7: across any operation sequence on a fresh session (either
transport), the ids attached to requests are exactly 1, 2, 3, ... in
order (until the practically unreachable u64 wrap); notifications carry
no id and leave the counter unchanged. -/
theorem request_id_monotonic (ops : List SessionOp) :
    (requestCount ops < U64_MOD →
      issuedIds initialNextId ops = List.range' 1 (requestCount ops)) ∧
    (∀ m p, (mkNotificationFrame m p).id = none) ∧
    (∀ s m p, stepNextId s (SessionOp.notification m p) = (s, none)) ∧
    (∀ i m p, (mkRequestFrame i m p).id = some i) := by
  refine ⟨?_, fun m p => rfl, fun s m p => rfl, fun i m p => rfl⟩
  intro h
  exact issuedIds_eq_range' ops 1 (by omega)

/-- Witness for C7: the handshake-and-call sequence issues ids 1, 2, 3 and
the interleaved notification none. -/
theorem request_id_monotonic_witness :
    issuedIds initialNextId
      [SessionOp.request "initialize" none,
       SessionOp.notification "notifications/initialized" none,
       SessionOp.request "tools/list" none,
       SessionOp.request "tools/call" none]
      = [1, 2, 3] :=
  (request_id_monotonic
    [SessionOp.request "initialize" none,
     SessionOp.notification "notifications/initialized" none,
     SessionOp.request "tools/list" none,
     SessionOp.request "tools/call" none]).1 (by decide)

/-- The connect loop accumulates exactly the successfully connected
sessions, in iteration order. -/
theorem connectPush_foldl (connect : String → McpServerConfig → ConnectOutcome)
    (entries : List (String × McpServerConfig)) :
    ∀ acc, entries.foldl (connectPush connect) acc
      = acc ++ entries.filterMap (connectedOnly connect) := by
  induction entries with
  | nil => intro acc; simp
  | cons e rest ih =>
    intro acc
    rcases h : connect e.1 e.2 with srv | err | -
    · simp [List.foldl_cons, List.filterMap_cons, connectPush, connectedOnly, h, ih]
    · simp [List.foldl_cons, List.filterMap_cons, connectPush, connectedOnly, h, ih]
    · simp [List.foldl_cons, List.filterMap_cons, connectPush, connectedOnly, h, ih]

/-- C8: manager load never fails — a missing config file gives zero
sessions, an unparseable config gives zero sessions, and otherwise each
connect error or 30-second-deadline expiry of an entry is skipped, leaving
exactly the successfully connected sessions in the manager. -/
theorem manager_load_contained (parse : String → Option McpConfig)
    (connect : String → McpServerConfig → ConnectOutcome) :
    (fromConfigFile none parse connect).servers = [] ∧
    (∀ s, parse s = none → (fromConfigFile (some s) parse connect).servers = []) ∧
    (∀ s cfg, parse s = some cfg →
      (fromConfigFile (some s) parse connect).servers
        = cfg.mcp_servers.filterMap (connectedOnly connect)) ∧
    managerConnectDeadlineSecs = 30 := by
  refine ⟨rfl, ?_, ?_, rfl⟩
  · intro s h; simp [fromConfigFile, h]
  · intro s cfg h
    simp only [fromConfigFile, h]
    exact (connectPush_foldl connect cfg.mcp_servers []).trans (List.nil_append _)

/-- Witness for C8: of two configured servers, the one whose spawn fails
is skipped and the session of the other is retained. -/
theorem manager_load_contained_witness :
    (fromConfigFile (some "cfg")
      (fun _ => some
        { default_protocol_version := none,
          mcp_servers :=
            [("a", { transport := "stdio", command := "ok-server" }),
             ("b", { transport := "stdio", command := "bad-server" })] })
      (fun n _ =>
        if n = "a" then ConnectOutcome.connected ⟨"a", "2025-11-05", "2025-11-05", []⟩
        else ConnectOutcome.failed "spawn failed")).servers
      = [⟨"a", "2025-11-05", "2025-11-05", []⟩] := by
  rw [(manager_load_contained
      (fun _ => some
        { default_protocol_version := none,
          mcp_servers :=
            [("a", { transport := "stdio", command := "ok-server" }),
             ("b", { transport := "stdio", command := "bad-server" })] })
      (fun n _ =>
        if n = "a" then ConnectOutcome.connected ⟨"a", "2025-11-05", "2025-11-05", []⟩
        else ConnectOutcome.failed "spawn failed")).2.2.1 "cfg" _ rfl]
  rfl

end Microclaw
